import Mathlib

/-!
Verification of the `kill-zen-all` clipboard-normalizer agent
(`src/main.rs`).  Strings are modelled as lists of Unicode scalar values
(`List Char`), which agrees with Rust byte-level substring matching on
valid UTF-8 because UTF-8 is self-synchronizing.  The external
collaborators (clipboard provider, file watcher, filesystem loads, the
std `DefaultHasher` and the `regex` engine) are modelled as explicit
inputs or as small executable stand-ins, as noted on each definition.
-/

deriving instance DecidableEq for Except

namespace KillZenAll

/-- A substitution rule, from `struct Replacement` (main.rs lines 25-29):
an ordered pair of `original` and `replacement` strings. -/
structure Replacement where
  original : List Char
  replacement : List Char
  deriving DecidableEq, Repr

/-- One pass of leftmost, non-overlapping substring replacement, the
behaviour of Rust `str::replace` for a non-empty pattern: at each position,
if the pattern starts here, emit the replacement and skip past the match,
otherwise keep the character and move one position right.  `fuel` bounds
the recursion so the definition is structural (hence kernel-computable);
it is always called with `fuel ≥ s.length`, making the `0` case dead. -/
def replaceGo (pat rep : List Char) : Nat → List Char → List Char
  | _, [] => []
  | 0, s => s
  | fuel + 1, c :: rest =>
    if pat.isPrefixOf (c :: rest) then
      rep ++ replaceGo pat rep fuel (List.drop (pat.length - 1) rest)
    else
      c :: replaceGo pat rep fuel rest

/-- Model of Rust `String::replace(pat, rep)` (main.rs line 118): replace
every non-overlapping occurrence of `pat` in `s` by `rep`, scanning left to
right.  An empty pattern matches at every character boundary, as in Rust. -/
def strReplace (s pat rep : List Char) : List Char :=
  match pat with
  | [] => rep ++ (s.map (fun c => c :: rep)).flatten
  | _ :: _ => replaceGo pat rep s.length s

/-- The rule-application loop of `format_text` (main.rs lines 116-119):
each rule rewrites the current working string in sequence order. -/
def applyReplacements (text : List Char) (replacements : List Replacement) : List Char :=
  replacements.foldl (fun acc r => strReplace acc r.original r.replacement) text

/-- A compiled single-range character class, the shape of the one regex the
program builds. -/
structure CharClassRegex where
  lo : Char
  hi : Char
  deriving DecidableEq, Repr

/-- Stand-in for `Regex::new` (external `regex` crate), restricted to the
single-character-class range patterns of shape `[lo-hi]` — the only shape
`format_text` uses.  Compilation succeeds exactly when the pattern has that
shape and the range is non-empty. -/
def regexNew (pat : List Char) : Except (List Char) CharClassRegex :=
  match pat with
  | ['[', lo, '-', hi, ']'] =>
    if lo ≤ hi then Except.ok ⟨lo, hi⟩
    else Except.error ("Failed to create regex pattern".data)
  | _ => Except.error ("Failed to create regex pattern".data)

/-- The pattern literal of main.rs line 120: `[！-～]`, i.e. the full-width
block U+FF01 (FULLWIDTH EXCLAMATION MARK) .. U+FF5E (FULLWIDTH TILDE). -/
def fwPattern : List Char := ['[', '！', '-', '～', ']']

/-- The compiled form of `fwPattern`. -/
def fwRe : CharClassRegex := ⟨'！', '～'⟩

/-- The replacement closure of main.rs lines 122-130, applied to each
matched character: an excluded character is kept; any other match has
`0xFEE0` subtracted from its code point, truncated to `u8` and re-read as a
character (`(c as u32 - 0xfee0) as u8 as char`). -/
def foldChar (exclusion_list : List Char) (c : Char) : Char :=
  if exclusion_list.contains c then c
  else Char.ofNat ((c.toNat - 0xFEE0) % 256)

/-- Model of `Regex::replace_all` with a single-character replacement
closure: every character inside the class is mapped through `f`, every
character outside it is copied verbatim. -/
def replaceAll (re : CharClassRegex) (f : Char → Char) (s : List Char) : List Char :=
  s.map (fun c => if re.lo.toNat ≤ c.toNat ∧ c.toNat ≤ re.hi.toNat then f c else c)

/-- `format_text` (main.rs lines 110-133): apply the substitution rules in
order, then fold full-width characters to half width, skipping excluded
characters. -/
def format_text (text : List Char) (replacements : List Replacement)
    (exclusion_list : List Char) : Except (List Char) (List Char) :=
  let formatted_content := applyReplacements text replacements
  match regexNew fwPattern with
  | Except.error e => Except.error e
  | Except.ok re => Except.ok (replaceAll re (foldChar exclusion_list) formatted_content)

example : format_text "foo baz １２３４！？".data
    [⟨"foo".data, "bar".data⟩, ⟨"baz".data, "qux".data⟩] ['！', '？']
    = Except.ok "bar qux 1234！？".data := rfl

example : format_text "foo baz １２３４！？".data
    [⟨"foo".data, "bar".data⟩, ⟨"baz".data, "qux".data⟩] []
    = Except.ok "bar qux 1234!?".data := rfl

example : format_text "foo baz １２３４！？".data [] ['！']
    = Except.ok "foo baz 1234！?".data := rfl

example : strReplace "aaa".data "aa".data "b".data = "ba".data := rfl

/-! ## The control loop of `main` (main.rs lines 173-326)

The effectful collaborators are modelled explicitly: the watcher channel is
a queue of pending messages, and the results of the clipboard calls, the
two config loads and the watcher reconstruction performed during one
iteration are supplied as a `TickInput`. -/

/-- Which of the two watched config files a path refers to. -/
inductive ConfigPath where
  | replacements
  | exclusions
  deriving DecidableEq, Repr

/-- A `notify` change event, reduced to the data the loop inspects: which
watched paths it mentions (`event.paths.contains(..)`, lines 251 and 272). -/
structure Event where
  paths : List ConfigPath
  deriving DecidableEq, Repr

/-- The watcher channel.  Each queued message models one `Result` sent by
the watcher: `some ev` an `Ok(event)`, `none` an `Err(_)` (over which the
`events.iter()` of line 250 yields nothing).  `disconnected` records that
every sender is gone. -/
structure Channel where
  queue : List (Option Event)
  disconnected : Bool
  deriving DecidableEq, Repr

/-- Result of `mpsc::Receiver::try_recv`. -/
inductive RecvOut where
  | ok (msg : Option Event)
  | empty
  | disconnected
  deriving DecidableEq, Repr

/-- Model of `rx.try_recv()` (line 248): pop one pending message without
blocking; report `Disconnected` only when the queue is empty and all
senders have been dropped. -/
def tryRecv (ch : Channel) : RecvOut × Channel :=
  match ch.queue with
  | m :: rest => (RecvOut.ok m, ⟨rest, ch.disconnected⟩)
  | [] =>
    if ch.disconnected then (RecvOut.disconnected, ch) else (RecvOut.empty, ch)

/-- Stand-in for `calculate_hash` over the std `DefaultHasher` (an external
library component, main.rs lines 46-50): one 64-bit mixing step. The program
relies only on the hash being a deterministic function of the parsed
content; we use a simple polynomial hash reduced modulo `2 ^ 64`. -/
def hashStep (a n : Nat) : Nat := (a * 31 + n + 1) % 2 ^ 64

/-- Hash of one string: its length followed by its code points (mirroring
how the std hasher consumes a `String`). -/
def hashChars (a : Nat) (s : List Char) : Nat :=
  s.foldl (fun h c => hashStep h c.toNat) (hashStep a s.length)

/-- Content hash of a parsed rule sequence, the replacements fingerprint. -/
def hashRepl (rs : List Replacement) : Nat :=
  rs.foldl (fun a r => hashChars (hashChars a r.original) r.replacement)
    (hashStep 0 rs.length)

/-- Content hash of a parsed exclusion list, the exclusions fingerprint. -/
def hashExcl (es : List Char) : Nat := hashChars 0 es

/-- The mutable state of the loop in `main`: the two config snapshots, their
accepted fingerprints (lines 203-204) and the two sticky failure flags
(lines 206-207). -/
structure AgentState where
  replacements : List Replacement
  exclusion_list : List Char
  previous_replacement_hash : Nat
  previous_exclusion_hash : Nat
  replacement_failed : Bool
  exclusion_failed : Bool
  deriving DecidableEq, Repr

/-- The results of the external calls one iteration can make: the clipboard
read, the clipboard write (when attempted), the clipboard-context
recreation (when attempted), the two config file loads (when attempted) and
the watcher reconstruction and re-registrations (when attempted). -/
structure TickInput where
  clipboardRead : Except Unit (List Char)
  writeOk : Bool
  reopenOk : Bool
  loadRepl : Except Unit (List Replacement)
  loadExcl : Except Unit (List Char)
  recreateWatcherOk : Bool
  rewatchReplOk : Bool
  rewatchExclOk : Bool
  deriving DecidableEq, Repr

/-- The log lines the loop body can emit, one constructor per `info!` or
`warn!` site reached in the loop (grouping the paired reload `info!` lines
of lines 265-266 and 286-287 into one entry each). -/
inductive LogEntry where
  | formattedInfo
  | setFailed
  | formatFailed
  | getFailed
  | ctxRecreated
  | ctxRecreateFailed
  | loadReplFailed
  | loadExclFailed
  | replReloaded
  | exclReloaded
  | watcherDisconnected
  | watcherReconnected
  | watcherRecreateFailed
  | rewatchReplFailed
  | rewatchExclFailed
  deriving DecidableEq, Repr

/-- Everything one loop iteration produces: the successor state, the
channel after the drain, the emitted log lines and the contents passed to
`set_clipboard_contents`, in order. -/
structure TickResult where
  state : AgentState
  chan : Channel
  logs : List LogEntry
  writes : List (List Char)
  deriving DecidableEq, Repr

/-- The clipboard half of the loop body (lines 211-245): read, format,
write back when the text changed (logging a non-fatal warning if the write
fails); on a read failure recreate the context (lines 232-244).  Returns
the logs and the write attempts; the config state is not touched here. -/
def clipboardStep (st : AgentState) (inp : TickInput) :
    List LogEntry × List (List Char) :=
  match inp.clipboardRead with
  | Except.ok clipboard_content =>
    match format_text clipboard_content st.replacements st.exclusion_list with
    | Except.ok formatted_content =>
      if clipboard_content ≠ formatted_content then
        if inp.writeOk then
          ([LogEntry.formattedInfo], [formatted_content])
        else
          ([LogEntry.formattedInfo, LogEntry.setFailed], [formatted_content])
      else ([], [])
    | Except.error _ => ([LogEntry.formatFailed], [])
  | Except.error _ =>
    if inp.reopenOk then
      ([LogEntry.getFailed, LogEntry.ctxRecreated], [])
    else
      ([LogEntry.getFailed, LogEntry.ctxRecreateFailed], [])

/-- The exclusions half of the per-event body (lines 272-292): reload,
with sticky one-shot failure logging; apply the parsed list and update the
fingerprint and flag only when the content hash differs. -/
def exclPart (st : AgentState) (inp : TickInput) (ev : Event) :
    AgentState × List LogEntry :=
  if ev.paths.contains ConfigPath.exclusions then
    match inp.loadExcl with
    | Except.error _ =>
      ({ st with exclusion_failed := true },
       if st.exclusion_failed then [] else [LogEntry.loadExclFailed])
    | Except.ok new_exclusion_list =>
      let new_exclusion_hash := hashExcl new_exclusion_list
      if st.previous_exclusion_hash ≠ new_exclusion_hash then
        ({ st with exclusion_list := new_exclusion_list,
                   previous_exclusion_hash := new_exclusion_hash,
                   exclusion_failed := false }, [LogEntry.exclReloaded])
      else (st, [])
  else (st, [])

/-- Body of `for event in events.iter()` (lines 250-293).  A failed
replacements load runs `continue` (line 261), which also skips the
exclusions block for that event. -/
def processEvent (st : AgentState) (inp : TickInput) (ev : Event) :
    AgentState × List LogEntry :=
  if ev.paths.contains ConfigPath.replacements then
    match inp.loadRepl with
    | Except.error _ =>
      ({ st with replacement_failed := true },
       if st.replacement_failed then [] else [LogEntry.loadReplFailed])
    | Except.ok new_replacements =>
      let new_replacement_hash := hashRepl new_replacements
      let next :=
        if st.previous_replacement_hash ≠ new_replacement_hash then
          ({ st with replacements := new_replacements,
                     previous_replacement_hash := new_replacement_hash,
                     replacement_failed := false },
           [LogEntry.replReloaded])
        else (st, ([] : List LogEntry))
      let after := exclPart next.1 inp ev
      (after.1, next.2 ++ after.2)
  else exclPart st inp ev

/-- The drain of the watcher channel (lines 248-321): one `try_recv`, the
per-event processing of an `Ok` message, and watcher reconstruction on
`Disconnected` (lines 298-320). -/
def drainStep (st : AgentState) (ch : Channel) (inp : TickInput) :
    AgentState × Channel × List LogEntry :=
  match tryRecv ch with
  | (RecvOut.ok (some ev), ch2) =>
    let r := processEvent st inp ev
    (r.1, ch2, r.2)
  | (RecvOut.ok none, ch2) => (st, ch2, [])
  | (RecvOut.empty, ch2) => (st, ch2, [])
  | (RecvOut.disconnected, ch2) =>
    if inp.recreateWatcherOk then
      (st, { ch2 with disconnected := false },
       [LogEntry.watcherDisconnected]
         ++ (if inp.rewatchReplOk then [] else [LogEntry.rewatchReplFailed])
         ++ (if inp.rewatchExclOk then [] else [LogEntry.rewatchExclFailed])
         ++ [LogEntry.watcherReconnected])
    else
      (st, ch2, [LogEntry.watcherDisconnected, LogEntry.watcherRecreateFailed])

/-- One iteration of the `loop` in `main` (lines 209-325): the clipboard
step followed by the drain step, then the fixed sleep (not modelled — it
carries no state). -/
def tick (st : AgentState) (ch : Channel) (inp : TickInput) : TickResult :=
  let clip := clipboardStep st inp
  let drained := drainStep st ch inp
  ⟨drained.1, drained.2.1, clip.1 ++ drained.2.2, clip.2⟩

/-- The state `main` sets up before entering the loop (lines 180-207): the
fingerprints are the hashes of the just-loaded configs and both sticky
failure flags start clear. -/
def initState (replacements : List Replacement) (exclusion_list : List Char) :
    AgentState :=
  ⟨replacements, exclusion_list, hashRepl replacements, hashExcl exclusion_list,
   false, false⟩

/-- Run the loop over a list of ticks.  Before each tick the messages the
watcher produced since the previous tick (`arrivals`) are appended to the
channel queue. -/
def runTicks :
    AgentState → Channel → List (List (Option Event) × TickInput) →
      AgentState × Channel
  | st, ch, [] => (st, ch)
  | st, ch, step :: rest =>
    let r := tick st { ch with queue := ch.queue ++ step.1 } step.2
    runTicks r.state r.chan rest

/-- The probe operations `create_clipboard_context` can attempt. -/
inductive ProbeOp where
  | read
  | writeEmpty
  deriving DecidableEq, Repr

/-- The behaviour of the underlying clipboard provider during `open`:
whether `ClipboardContext::new`, the probe `get_contents` and the probe
`set_contents("")` would each succeed. -/
structure ProbeEnv where
  newOk : Bool
  readOk : Bool
  writeEmptyOk : Bool
  deriving DecidableEq, Repr

/-- `create_clipboard_context` (main.rs lines 135-144): construct the
provider, then sanity-probe it — `get_contents()` and, by `&&`
short-circuiting, `set_contents("")` only when the read failed; fail when
both probes fail.  Also returns the probe operations attempted, in order. -/
def create_clipboard_context (env : ProbeEnv) :
    Except (List Char) Unit × List ProbeOp :=
  if env.newOk then
    if env.readOk then (Except.ok (), [ProbeOp.read])
    else if env.writeEmptyOk then
      (Except.ok (), [ProbeOp.read, ProbeOp.writeEmpty])
    else
      (Except.error ("Failed to set empty contents".data),
       [ProbeOp.read, ProbeOp.writeEmpty])
  else (Except.error ("Failed to create clipboard provider".data), [])

/-! ## Helper lemmas -/

/-- Packing a scalar value below the surrogate range into a `Char` and
unpacking it is the identity. -/
theorem char_toNat_ofNat {n : Nat} (h : n < 0xd800) : (Char.ofNat n).toNat = n := by
  have hv : n.isValidChar := Or.inl h
  simp only [Char.ofNat, hv, dif_pos]
  simp [Char.ofNatAux, Char.toNat, UInt32.toNat]

/-- `replaceGo` does not depend on the exact fuel, as long as the fuel
covers the length of the string. -/
theorem replaceGo_fuel (pat rep : List Char) :
    ∀ fuel fuel' s, s.length ≤ fuel → s.length ≤ fuel' →
      replaceGo pat rep fuel s = replaceGo pat rep fuel' s := by
  intro fuel
  induction fuel with
  | zero =>
    intro fuel' s hs _
    have : s = [] := List.length_eq_zero.mp (Nat.le_zero.mp hs)
    subst this
    cases fuel' <;> rfl
  | succ f ih =>
    intro fuel' s hs hs'
    cases s with
    | nil => cases fuel' <;> rfl
    | cons c rest =>
      cases fuel' with
      | zero => exact absurd hs' (by simp)
      | succ f' =>
        simp only [replaceGo]
        have hr : rest.length ≤ f := by
          simpa using Nat.le_of_succ_le_succ hs
        have hr' : rest.length ≤ f' := by
          simpa using Nat.le_of_succ_le_succ hs'
        by_cases hp : pat.isPrefixOf (c :: rest)
        · simp only [hp, if_true]
          have hd : (List.drop (pat.length - 1) rest).length ≤ rest.length := by
            simp [List.length_drop]
          exact congrArg (rep ++ ·)
            (ih f' _ (Nat.le_trans hd hr) (Nat.le_trans hd hr'))
        · simp only [hp, if_false]
          exact congrArg (c :: ·) (ih f' rest hr hr')

/-- Unfolding equation for `strReplace` on the empty string. -/
theorem strReplace_nil (p : Char) (ps rep : List Char) :
    strReplace [] (p :: ps) rep = [] := rfl

/-- Unfolding equation for `strReplace` with a non-empty pattern: the
leftmost occurrence is replaced and the search continues past it, while a
non-matching head character is kept. -/
theorem strReplace_cons (c : Char) (rest rep : List Char) (p : Char) (ps : List Char) :
    strReplace (c :: rest) (p :: ps) rep
      = if (p :: ps).isPrefixOf (c :: rest)
        then rep ++ strReplace (List.drop ps.length rest) (p :: ps) rep
        else c :: strReplace rest (p :: ps) rep := by
  show replaceGo (p :: ps) rep (rest.length + 1) (c :: rest) = _
  simp only [replaceGo]
  by_cases hp : (p :: ps).isPrefixOf (c :: rest)
  · simp only [hp, if_true, List.length_cons, Nat.add_sub_cancel]
    refine congrArg (rep ++ ·) ?_
    exact replaceGo_fuel (p :: ps) rep rest.length _ _
      (by simp [List.length_drop]) (Nat.le_refl _)
  · simp only [hp, if_false]
    rfl

/-- The clipboard half of an iteration can only emit its own six log
lines; any other entry occurs zero times in its output. -/
theorem clipboardStep_count_zero (st : AgentState) (inp : TickInput) (l : LogEntry)
    (h1 : l ≠ LogEntry.formattedInfo) (h2 : l ≠ LogEntry.setFailed)
    (h3 : l ≠ LogEntry.formatFailed) (h4 : l ≠ LogEntry.getFailed)
    (h5 : l ≠ LogEntry.ctxRecreated) (h6 : l ≠ LogEntry.ctxRecreateFailed) :
    (clipboardStep st inp).1.count l = 0 := by
  unfold clipboardStep
  split
  · split
    · split
      · split <;>
          simp [List.count_cons, List.count_nil, Ne.symm h1, Ne.symm h2]
      · simp [List.count_nil]
    · simp [List.count_cons, List.count_nil, Ne.symm h3]
  · split <;>
      simp [List.count_cons, List.count_nil, Ne.symm h4, Ne.symm h5, Ne.symm h6]

/-- The exclusions half of the event body can only emit its two log
lines. -/
theorem exclPart_count_zero (st : AgentState) (inp : TickInput) (ev : Event)
    (l : LogEntry) (h1 : l ≠ LogEntry.loadExclFailed) (h2 : l ≠ LogEntry.exclReloaded) :
    (exclPart st inp ev).2.count l = 0 := by
  unfold exclPart
  split
  · split
    · split <;> simp [List.count_cons, List.count_nil, Ne.symm h1]
    · dsimp only
      split <;> simp [List.count_cons, List.count_nil, Ne.symm h2]
  · simp [List.count_nil]

/-- The event body can only emit the four reload-related log lines. -/
theorem processEvent_count_zero (st : AgentState) (inp : TickInput) (ev : Event)
    (l : LogEntry) (h1 : l ≠ LogEntry.loadReplFailed) (h2 : l ≠ LogEntry.loadExclFailed)
    (h3 : l ≠ LogEntry.replReloaded) (h4 : l ≠ LogEntry.exclReloaded) :
    (processEvent st inp ev).2.count l = 0 := by
  unfold processEvent
  split
  · split
    · split <;> simp [List.count_cons, List.count_nil, Ne.symm h1]
    · dsimp only
      simp only [List.count_append]
      rw [exclPart_count_zero _ _ _ _ h2 h4]
      split <;> simp [List.count_cons, List.count_nil, Ne.symm h3]
  · exact exclPart_count_zero _ _ _ _ h2 h4

/-- The drain step can only emit the reload-related and watcher-related
log lines. -/
theorem drainStep_count_zero (st : AgentState) (ch : Channel) (inp : TickInput)
    (l : LogEntry) (h1 : l ≠ LogEntry.loadReplFailed) (h2 : l ≠ LogEntry.loadExclFailed)
    (h3 : l ≠ LogEntry.replReloaded) (h4 : l ≠ LogEntry.exclReloaded)
    (h5 : l ≠ LogEntry.watcherDisconnected) (h6 : l ≠ LogEntry.watcherReconnected)
    (h7 : l ≠ LogEntry.watcherRecreateFailed) (h8 : l ≠ LogEntry.rewatchReplFailed)
    (h9 : l ≠ LogEntry.rewatchExclFailed) :
    (drainStep st ch inp).2.2.count l = 0 := by
  unfold drainStep
  split
  · exact processEvent_count_zero _ _ _ _ h1 h2 h3 h4
  · simp [List.count_nil]
  · simp [List.count_nil]
  · split
    · cases hr : inp.rewatchReplOk <;> cases hx : inp.rewatchExclOk <;>
        simp [hr, hx, List.count_append, List.count_cons, List.count_nil,
          beq_iff_eq, Ne.symm h5, Ne.symm h6, Ne.symm h8, Ne.symm h9]
    · simp [List.count_cons, List.count_nil, Ne.symm h5, Ne.symm h7]

/-- The exclusions half of the event body never touches the replacements
snapshot, its fingerprint or its sticky flag. -/
theorem exclPart_repl_frame (st : AgentState) (inp : TickInput) (ev : Event) :
    (exclPart st inp ev).1.replacements = st.replacements
    ∧ (exclPart st inp ev).1.previous_replacement_hash = st.previous_replacement_hash
    ∧ (exclPart st inp ev).1.replacement_failed = st.replacement_failed := by
  unfold exclPart
  split
  · split
    · exact ⟨rfl, rfl, rfl⟩
    · dsimp only
      split
      · exact ⟨rfl, rfl, rfl⟩
      · exact ⟨rfl, rfl, rfl⟩
  · exact ⟨rfl, rfl, rfl⟩

/-- The fingerprint invariant of the loop: each stored fingerprint is the
hash of the config snapshot currently held. -/
def hashInvariant (st : AgentState) : Prop :=
  st.previous_replacement_hash = hashRepl st.replacements
  ∧ st.previous_exclusion_hash = hashExcl st.exclusion_list

/-- The exclusions half of the event body preserves the fingerprint
invariant. -/
theorem exclPart_hashInv (st : AgentState) (inp : TickInput) (ev : Event)
    (h : hashInvariant st) : hashInvariant (exclPart st inp ev).1 := by
  unfold exclPart
  split
  · split
    · exact h
    · dsimp only
      split
      · exact ⟨h.1, rfl⟩
      · exact h
  · exact h

/-- The event body preserves the fingerprint invariant. -/
theorem processEvent_hashInv (st : AgentState) (inp : TickInput) (ev : Event)
    (h : hashInvariant st) : hashInvariant (processEvent st inp ev).1 := by
  unfold processEvent
  split
  · split
    · exact h
    · dsimp only
      split
      · exact exclPart_hashInv _ _ _ ⟨rfl, h.2⟩
      · exact exclPart_hashInv _ _ _ h
  · exact exclPart_hashInv _ _ _ h

/-- One whole iteration preserves the fingerprint invariant. -/
theorem tick_hashInv (st : AgentState) (ch : Channel) (inp : TickInput)
    (h : hashInvariant st) : hashInvariant (tick st ch inp).state := by
  show hashInvariant (drainStep st ch inp).1
  unfold drainStep
  split
  · exact processEvent_hashInv _ _ _ h
  · exact h
  · exact h
  · split
    · exact h
    · exact h

/-- Any run of the loop preserves the fingerprint invariant. -/
theorem runTicks_hashInv (ticks : List (List (Option Event) × TickInput)) :
    ∀ st ch, hashInvariant st → hashInvariant (runTicks st ch ticks).1 := by
  induction ticks with
  | nil => intro st _ h; exact h
  | cons step rest ih =>
    intro st ch h
    exact ih _ _ (tick_hashInv _ _ _ h)

/-- A non-excluded character of the full-width block U+FF01..U+FF5E is
folded to the code point `0xFEE0` lower: the subtraction lands in
`0x21..0x7E`, so the `u8` truncation and the re-reading as a character are
both lossless. -/
theorem foldChar_toNat (E : List Char) (c : Char) (hE : E.contains c = false)
    (h1 : 0xFF01 ≤ c.toNat) (h2 : c.toNat ≤ 0xFF5E) :
    (foldChar E c).toNat = c.toNat - 0xFEE0 := by
  unfold foldChar
  rw [hE]
  simp only [Bool.false_eq_true, if_false]
  rw [Nat.mod_eq_of_lt (by omega)]
  exact char_toNat_ofNat (by omega)

/-- Folding with an empty exclusion list is idempotent: the first pass
leaves no character inside the scanned block. -/
theorem replaceAll_fold_idem (s : List Char) :
    replaceAll fwRe (foldChar []) (replaceAll fwRe (foldChar []) s)
      = replaceAll fwRe (foldChar []) s := by
  unfold replaceAll
  rw [List.map_map]
  apply List.map_congr_left
  intro c _
  dsimp only [Function.comp]
  have hlo : fwRe.lo.toNat = 0xFF01 := rfl
  have hhi : fwRe.hi.toNat = 0xFF5E := rfl
  by_cases hc : fwRe.lo.toNat ≤ c.toNat ∧ c.toNat ≤ fwRe.hi.toNat
  · have hfold : (foldChar [] c).toNat = c.toNat - 0xFEE0 :=
      foldChar_toNat [] c rfl (hlo ▸ hc.1) (hhi ▸ hc.2)
    have hout : ¬ (fwRe.lo.toNat ≤ (foldChar [] c).toNat
        ∧ (foldChar [] c).toNat ≤ fwRe.hi.toNat) := by
      rw [hfold, hlo, hhi]
      omega
    rw [if_pos hc, if_neg hout]
  · rw [if_neg hc, if_neg hc]

/-- `format_text` is total: it always returns `Ok` of the substituted,
width-folded string. -/
theorem format_text_ok (text : List Char) (R : List Replacement) (E : List Char) :
    format_text text R E
      = Except.ok (replaceAll fwRe (foldChar E) (applyReplacements text R)) := rfl

/-- The clipboard half of an iteration never reaches the format-failure
warning, because `format_text` always succeeds. -/
theorem clipboardStep_count_formatFailed (st : AgentState) (inp : TickInput) :
    (clipboardStep st inp).1.count LogEntry.formatFailed = 0 := by
  unfold clipboardStep
  split
  · split
    · split
      · split <;> simp [List.count_cons, List.count_nil]
      · simp [List.count_nil]
    · rename_i e heq
      rw [format_text_ok] at heq
      exact Except.noConfusion heq
  · split <;> simp [List.count_cons, List.count_nil]

/-- Reduction of the event body when the replacements load fails: the
sticky flag is set, the failure is logged only if the flag was clear, and
(because of the `continue`) nothing else happens. -/
theorem processEvent_repl_error (st : AgentState) (inp : TickInput) (ev : Event)
    (hrep : ev.paths.contains ConfigPath.replacements = true)
    (hload : inp.loadRepl = Except.error ()) :
    processEvent st inp ev
      = ({ st with replacement_failed := true },
         if st.replacement_failed then [] else [LogEntry.loadReplFailed]) := by
  unfold processEvent
  rw [if_pos hrep, hload]

/-- Reduction of the replacements fields of the event body when the
replacements load succeeds: the snapshot, fingerprint and flag change
exactly when the new content hash differs from the stored fingerprint. -/
theorem processEvent_repl_ok_fields (st : AgentState) (inp : TickInput) (ev : Event)
    (newR : List Replacement)
    (hrep : ev.paths.contains ConfigPath.replacements = true)
    (hload : inp.loadRepl = Except.ok newR) :
    (processEvent st inp ev).1.replacements
      = (if st.previous_replacement_hash ≠ hashRepl newR then newR
         else st.replacements)
    ∧ (processEvent st inp ev).1.previous_replacement_hash
      = (if st.previous_replacement_hash ≠ hashRepl newR then hashRepl newR
         else st.previous_replacement_hash)
    ∧ (processEvent st inp ev).1.replacement_failed
      = (if st.previous_replacement_hash ≠ hashRepl newR then false
         else st.replacement_failed) := by
  unfold processEvent
  rw [if_pos hrep, hload]
  dsimp only
  by_cases hh : st.previous_replacement_hash ≠ hashRepl newR
  · rw [if_pos hh]
    dsimp only
    have hf := exclPart_repl_frame
      { st with replacements := newR,
                previous_replacement_hash := hashRepl newR,
                replacement_failed := false } inp ev
    rw [if_pos hh, if_pos hh, if_pos hh]
    exact ⟨hf.1, hf.2.1, hf.2.2⟩
  · rw [if_neg hh]
    dsimp only
    have hf := exclPart_repl_frame st inp ev
    rw [if_neg hh, if_neg hh, if_neg hh]
    exact ⟨hf.1, hf.2.1, hf.2.2⟩

/-- An event that does not mention the replacements path goes straight to
the exclusions half. -/
theorem processEvent_noRepl (st : AgentState) (inp : TickInput) (ev : Event)
    (hrep : ev.paths.contains ConfigPath.replacements = false) :
    processEvent st inp ev = exclPart st inp ev := by
  unfold processEvent
  rw [if_neg (by rw [hrep]; exact Bool.false_ne_true)]

/-- Reduction of the exclusions half when the exclusions load fails. -/
theorem exclPart_error (st : AgentState) (inp : TickInput) (ev : Event)
    (hexc : ev.paths.contains ConfigPath.exclusions = true)
    (hload : inp.loadExcl = Except.error ()) :
    exclPart st inp ev
      = ({ st with exclusion_failed := true },
         if st.exclusion_failed then [] else [LogEntry.loadExclFailed]) := by
  unfold exclPart
  rw [if_pos hexc, hload]

/-- Reduction of the exclusions fields when the exclusions load succeeds:
applied exactly when the new content hash differs from the fingerprint. -/
theorem exclPart_ok_fields (st : AgentState) (inp : TickInput) (ev : Event)
    (newE : List Char)
    (hexc : ev.paths.contains ConfigPath.exclusions = true)
    (hload : inp.loadExcl = Except.ok newE) :
    (exclPart st inp ev).1.exclusion_list
      = (if st.previous_exclusion_hash ≠ hashExcl newE then newE
         else st.exclusion_list)
    ∧ (exclPart st inp ev).1.previous_exclusion_hash
      = (if st.previous_exclusion_hash ≠ hashExcl newE then hashExcl newE
         else st.previous_exclusion_hash)
    ∧ (exclPart st inp ev).1.exclusion_failed
      = (if st.previous_exclusion_hash ≠ hashExcl newE then false
         else st.exclusion_failed)
    ∧ (exclPart st inp ev).1.replacements = st.replacements
    ∧ (exclPart st inp ev).1.previous_replacement_hash
        = st.previous_replacement_hash
    ∧ (exclPart st inp ev).1.replacement_failed = st.replacement_failed := by
  unfold exclPart
  rw [if_pos hexc, hload]
  dsimp only
  by_cases hh : st.previous_exclusion_hash ≠ hashExcl newE
  · rw [if_pos hh]
    rw [if_pos hh, if_pos hh, if_pos hh]
    exact ⟨rfl, rfl, rfl, rfl, rfl, rfl⟩
  · rw [if_neg hh]
    rw [if_neg hh, if_neg hh, if_neg hh]
    exact ⟨rfl, rfl, rfl, rfl, rfl, rfl⟩

/-- Reduction of one iteration when the head of the queue is an `Ok`
message: its event is processed and the message is consumed. -/
theorem tick_queue_head (st : AgentState) (ch : Channel) (inp : TickInput)
    (ev : Event) (rest : List (Option Event)) (hq : ch.queue = some ev :: rest) :
    (tick st ch inp).state = (processEvent st inp ev).1
    ∧ (tick st ch inp).logs
        = (clipboardStep st inp).1 ++ (processEvent st inp ev).2
    ∧ (tick st ch inp).chan = ⟨rest, ch.disconnected⟩ := by
  have ht : tryRecv ch = (RecvOut.ok (some ev), ⟨rest, ch.disconnected⟩) := by
    unfold tryRecv
    rw [hq]
  refine ⟨?_, ?_, ?_⟩
  · show (drainStep st ch inp).1 = _
    unfold drainStep
    rw [ht]
  · show (clipboardStep st inp).1 ++ (drainStep st ch inp).2.2 = _
    unfold drainStep
    rw [ht]
  · show (drainStep st ch inp).2.1 = _
    unfold drainStep
    rw [ht]

/-- Reduction of one iteration when the head of the queue is an `Err`
message: the message is consumed and nothing is reloaded. -/
theorem tick_queue_err (st : AgentState) (ch : Channel) (inp : TickInput)
    (rest : List (Option Event)) (hq : ch.queue = none :: rest) :
    (tick st ch inp).state = st
    ∧ (tick st ch inp).chan = ⟨rest, ch.disconnected⟩ := by
  have ht : tryRecv ch = (RecvOut.ok none, ⟨rest, ch.disconnected⟩) := by
    unfold tryRecv
    rw [hq]
  constructor
  · show (drainStep st ch inp).1 = st
    unfold drainStep
    rw [ht]
  · show (drainStep st ch inp).2.1 = _
    unfold drainStep
    rw [ht]

/-- Reduction of one iteration when the queue is empty and the channel is
connected: the config state and the channel are untouched. -/
theorem tick_queue_empty (st : AgentState) (ch : Channel) (inp : TickInput)
    (hq : ch.queue = []) (hd : ch.disconnected = false) :
    (tick st ch inp).state = st ∧ (tick st ch inp).chan = ch := by
  have ht : tryRecv ch = (RecvOut.empty, ch) := by
    unfold tryRecv
    rw [hq, hd]
    rfl
  constructor
  · show (drainStep st ch inp).1 = st
    unfold drainStep
    rw [ht]
  · show (drainStep st ch inp).2.1 = ch
    unfold drainStep
    rw [ht]

/-- Reduction of one iteration when the channel reports `Disconnected`:
the config state is untouched and the queue stays empty. -/
theorem tick_disconnected (st : AgentState) (ch : Channel) (inp : TickInput)
    (hq : ch.queue = []) (hd : ch.disconnected = true) :
    (tick st ch inp).state = st ∧ (tick st ch inp).chan.queue = [] := by
  have ht : tryRecv ch = (RecvOut.disconnected, ch) := by
    unfold tryRecv
    rw [hq, hd]
    rfl
  constructor
  · show (drainStep st ch inp).1 = st
    unfold drainStep
    rw [ht]
    dsimp only
    split <;> rfl
  · show (drainStep st ch inp).2.1.queue = []
    unfold drainStep
    rw [ht]
    dsimp only
    split
    · exact hq
    · exact hq

/-! ## The claims -/

/-- C1: the width-folding step of `format_text` runs on the working string
after all rules are applied and maps each character as follows: a character
of U+FF01..U+FF5E that is in the exclusion list is kept; such a character
not in the exclusion list becomes the character with code point `0xFEE0`
lower; every character outside U+FF01..U+FF5E passes through unchanged,
whatever the exclusion list says. -/
theorem c1_width_folding (text : List Char) (R : List Replacement) (E : List Char) :
    format_text text R E
      = Except.ok (replaceAll fwRe (foldChar E) (applyReplacements text R))
    ∧ fwRe.lo.toNat = 0xFF01 ∧ fwRe.hi.toNat = 0xFF5E
    ∧ (∀ c : Char, 0xFF01 ≤ c.toNat → c.toNat ≤ 0xFF5E → E.contains c = true →
        foldChar E c = c)
    ∧ (∀ c : Char, 0xFF01 ≤ c.toNat → c.toNat ≤ 0xFF5E → E.contains c = false →
        (foldChar E c).toNat = c.toNat - 0xFEE0)
    ∧ (∀ c : Char, ¬ (0xFF01 ≤ c.toNat ∧ c.toNat ≤ 0xFF5E) →
        replaceAll fwRe (foldChar E) [c] = [c]) := by
  refine ⟨rfl, rfl, rfl, ?_, ?_, ?_⟩
  · intro c _ _ hE
    unfold foldChar
    rw [hE]
    simp
  · intro c h1 h2 hE
    exact foldChar_toNat E c hE h1 h2
  · intro c hc
    unfold replaceAll
    rw [List.map_singleton,
      if_neg (show ¬ (fwRe.lo.toNat ≤ c.toNat ∧ c.toNat ≤ fwRe.hi.toNat) from hc)]

/-- C1 witness: the excluded `！` is kept, the non-excluded `！` becomes
`!` (code point `0x21`), and the half-width `a` passes through. -/
theorem c1_width_folding_witness :
    foldChar ['！'] '！' = '！'
    ∧ (foldChar [] '！').toNat = 0xFF01 - 0xFEE0
    ∧ replaceAll fwRe (foldChar []) ['a'] = ['a'] :=
  ⟨(c1_width_folding [] [] ['！']).2.2.2.1 '！' (by decide) (by decide) (by decide),
   (c1_width_folding [] [] []).2.2.2.2.1 '！' (by decide) (by decide) (by decide),
   (c1_width_folding [] [] []).2.2.2.2.2 'a' (by decide)⟩

/-- C2: `format_text` applies the rules one at a time in list order — each
rule rewrites the current working string by plain substring replacement of
every non-overlapping occurrence (leftmost first, skipping past each
match, keeping non-matching characters), so later rules see the output of
earlier ones and duplicate originals apply repeatedly — and only the final
result is width-folded. -/
theorem c2_sequential_rules (text : List Char) (R : List Replacement) (E : List Char) :
    format_text text R E
      = Except.ok (replaceAll fwRe (foldChar E) (applyReplacements text R))
    ∧ (∀ t : List Char, applyReplacements t [] = t)
    ∧ (∀ (t : List Char) (r : Replacement) (rs : List Replacement),
        applyReplacements t (r :: rs)
          = applyReplacements (strReplace t r.original r.replacement) rs)
    ∧ (∀ (rep : List Char) (p : Char) (ps : List Char),
        strReplace [] (p :: ps) rep = [])
    ∧ (∀ (c : Char) (rest rep : List Char) (p : Char) (ps : List Char),
        strReplace (c :: rest) (p :: ps) rep
          = if (p :: ps).isPrefixOf (c :: rest)
            then rep ++ strReplace (List.drop ps.length rest) (p :: ps) rep
            else c :: strReplace rest (p :: ps) rep)
    ∧ (∀ (s rep : List Char),
        strReplace s [] rep = rep ++ (s.map (fun c => c :: rep)).flatten) :=
  ⟨rfl, fun _ => rfl, fun _ _ _ => rfl, fun _ _ _ => rfl,
   fun c rest rep p ps => strReplace_cons c rest rep p ps, fun _ _ => rfl⟩

/-- C6: on any output of `format_text` produced with an empty exclusion
list, running `format_text` again with no rules and no exclusions changes
nothing: the first width folding leaves no character in U+FF01..U+FF5E. -/
theorem c6_width_fold_idempotent (text : List Char) (R : List Replacement)
    (out : List Char) (h : format_text text R [] = Except.ok out) :
    format_text out [] [] = Except.ok out := by
  have h' : Except.ok (replaceAll fwRe (foldChar []) (applyReplacements text R))
      = Except.ok out := h
  have h2 := Except.ok.inj h'
  show Except.ok (replaceAll fwRe (foldChar []) out) = Except.ok out
  rw [← h2]
  exact congrArg Except.ok (replaceAll_fold_idem _)

/-- C6 witness: `format_text` folds `ａ` to `a`, and a second application
with no rules and no exclusions keeps `a` unchanged. -/
theorem c6_width_fold_idempotent_witness :
    format_text "a".data [] [] = Except.ok "a".data :=
  c6_width_fold_idempotent "ａ".data [] "a".data rfl

/-- C7: the three worked examples of the spec, matching the unit tests of
main.rs lines 499-603. -/
theorem c7_examples :
    format_text "foo baz １２３４！？".data
        [⟨"foo".data, "bar".data⟩, ⟨"baz".data, "qux".data⟩] ['！', '？']
      = Except.ok "bar qux 1234！？".data
    ∧ format_text "foo baz １２３４！？".data
        [⟨"foo".data, "bar".data⟩, ⟨"baz".data, "qux".data⟩] []
      = Except.ok "bar qux 1234!?".data
    ∧ format_text "foo baz １２３４！？".data [] ['！']
      = Except.ok "foo baz 1234！?".data :=
  ⟨rfl, rfl, rfl⟩

/-- C3 (amended): in an iteration whose event reloads a config file and
the load fails, that file's snapshot and fingerprint, the other file's
snapshot, fingerprint and flag are all unchanged; the failure is logged
exactly once if the sticky flag was clear and not at all if it was already
set, and the flag ends set.  A later successful load clears the flag only
when the parsed content's hash differs from the previously accepted
fingerprint; a successful load with an unchanged hash leaves the flag as
it was (the code does not clear the flag on every success). -/
theorem c3_sticky_failure (st : AgentState) (ch : Channel) (inp : TickInput)
    (ev : Event) (rest : List (Option Event)) (hq : ch.queue = some ev :: rest) :
    (inp.loadRepl = Except.error () →
      ev.paths.contains ConfigPath.replacements = true →
      ((tick st ch inp).state.replacements = st.replacements
        ∧ (tick st ch inp).state.previous_replacement_hash
            = st.previous_replacement_hash
        ∧ (tick st ch inp).state.exclusion_list = st.exclusion_list
        ∧ (tick st ch inp).state.previous_exclusion_hash
            = st.previous_exclusion_hash
        ∧ (tick st ch inp).state.exclusion_failed = st.exclusion_failed
        ∧ (tick st ch inp).state.replacement_failed = true
        ∧ (tick st ch inp).logs.count LogEntry.loadReplFailed
            = (if st.replacement_failed then 0 else 1)))
    ∧ (∀ newR, inp.loadRepl = Except.ok newR →
        ev.paths.contains ConfigPath.replacements = true →
        (tick st ch inp).state.replacement_failed
          = (if st.previous_replacement_hash ≠ hashRepl newR then false
             else st.replacement_failed))
    ∧ (inp.loadExcl = Except.error () →
        ev.paths.contains ConfigPath.exclusions = true →
        ev.paths.contains ConfigPath.replacements = false →
        ((tick st ch inp).state.exclusion_list = st.exclusion_list
          ∧ (tick st ch inp).state.previous_exclusion_hash
              = st.previous_exclusion_hash
          ∧ (tick st ch inp).state.replacements = st.replacements
          ∧ (tick st ch inp).state.previous_replacement_hash
              = st.previous_replacement_hash
          ∧ (tick st ch inp).state.replacement_failed = st.replacement_failed
          ∧ (tick st ch inp).state.exclusion_failed = true
          ∧ (tick st ch inp).logs.count LogEntry.loadExclFailed
              = (if st.exclusion_failed then 0 else 1)))
    ∧ (∀ newE, inp.loadExcl = Except.ok newE →
        ev.paths.contains ConfigPath.exclusions = true →
        ev.paths.contains ConfigPath.replacements = false →
        (tick st ch inp).state.exclusion_failed
          = (if st.previous_exclusion_hash ≠ hashExcl newE then false
             else st.exclusion_failed)) := by
  obtain ⟨hst, hlg, _⟩ := tick_queue_head st ch inp ev rest hq
  refine ⟨?_, ?_, ?_, ?_⟩
  · intro hload hrep
    rw [hst, hlg, processEvent_repl_error st inp ev hrep hload]
    refine ⟨rfl, rfl, rfl, rfl, rfl, rfl, ?_⟩
    rw [List.count_append,
      clipboardStep_count_zero st inp LogEntry.loadReplFailed (by decide)
        (by decide) (by decide) (by decide) (by decide) (by decide)]
    split_ifs <;> rfl
  · intro newR hload hrep
    rw [hst]
    exact (processEvent_repl_ok_fields st inp ev newR hrep hload).2.2
  · intro hload hexc hrep
    rw [hst, hlg, processEvent_noRepl st inp ev hrep,
      exclPart_error st inp ev hexc hload]
    refine ⟨rfl, rfl, rfl, rfl, rfl, rfl, ?_⟩
    rw [List.count_append,
      clipboardStep_count_zero st inp LogEntry.loadExclFailed (by decide)
        (by decide) (by decide) (by decide) (by decide) (by decide)]
    split_ifs <;> rfl
  · intro newE hload hexc hrep
    rw [hst, processEvent_noRepl st inp ev hrep]
    exact (exclPart_ok_fields st inp ev newE hexc hload).2.2.1

/-- The single-path event used in the concrete loop scenarios. -/
def c3wEvent : Event := ⟨[ConfigPath.replacements]⟩

/-- A channel holding one pending `Ok` message for the replacements file. -/
def c3wChan : Channel := ⟨[some c3wEvent], false⟩

/-- A tick whose replacements load fails to parse. -/
def c3wInput : TickInput :=
  ⟨Except.error (), true, true, Except.error (), Except.error (), true, true, true⟩

/-- C3 witness: starting with a clear flag, a failing replacements reload
logs the failure exactly once and sets the sticky flag. -/
theorem c3_sticky_failure_witness :
    (tick (initState [] []) c3wChan c3wInput).state.replacement_failed = true
    ∧ (tick (initState [] []) c3wChan c3wInput).logs.count
        LogEntry.loadReplFailed = 1 := by
  have h := (c3_sticky_failure (initState [] []) c3wChan c3wInput c3wEvent []
    rfl).1 rfl rfl
  refine ⟨h.2.2.2.2.2.1, ?_⟩
  rw [h.2.2.2.2.2.2]
  rfl

/-- The rule set used in the C3 counterexample. -/
def c3ReplSet : List Replacement := [⟨"x".data, "y".data⟩]

/-- A state whose sticky replacements flag is set while the accepted
fingerprint matches `c3ReplSet` — the situation after a parse failure once
the file is restored to its previously accepted content. -/
def c3cState : AgentState :=
  ⟨c3ReplSet, [], hashRepl c3ReplSet, hashExcl [], true, false⟩

/-- A tick whose replacements load succeeds with the previously accepted
content. -/
def c3cInput : TickInput :=
  ⟨Except.error (), true, true, Except.ok c3ReplSet, Except.error (), true,
   true, true⟩

/-- C3 counterexample: an iteration whose replacements reload succeeds (the
file parses again, with exactly the previously accepted content) leaves the
sticky failure flag set — contrary to the claim, the flag is not cleared on
every successful load, so a following parse failure would go unlogged. -/
theorem c3_flag_not_cleared_on_success :
    c3cInput.loadRepl = Except.ok c3ReplSet
    ∧ c3cState.replacement_failed = true
    ∧ (tick c3cState c3wChan c3cInput).state.replacement_failed = true :=
  ⟨rfl, rfl, rfl⟩

/-- C4: a successfully parsed reload is applied — snapshot replaced and
fingerprint updated — exactly when its content hash differs from the
previously accepted fingerprint, and the invariant "stored fingerprint =
hash of the held snapshot" holds initially and at the start of every later
iteration. -/
theorem c4_fingerprint (st : AgentState) (inp : TickInput) (ev : Event)
    (R : List Replacement) (E : List Char) :
    (∀ newR, inp.loadRepl = Except.ok newR →
      ev.paths.contains ConfigPath.replacements = true →
      (processEvent st inp ev).1.replacements
          = (if st.previous_replacement_hash ≠ hashRepl newR then newR
             else st.replacements)
        ∧ (processEvent st inp ev).1.previous_replacement_hash
          = (if st.previous_replacement_hash ≠ hashRepl newR then hashRepl newR
             else st.previous_replacement_hash))
    ∧ (∀ newE, inp.loadExcl = Except.ok newE →
        ev.paths.contains ConfigPath.exclusions = true →
        ev.paths.contains ConfigPath.replacements = false →
        (processEvent st inp ev).1.exclusion_list
            = (if st.previous_exclusion_hash ≠ hashExcl newE then newE
               else st.exclusion_list)
          ∧ (processEvent st inp ev).1.previous_exclusion_hash
            = (if st.previous_exclusion_hash ≠ hashExcl newE then hashExcl newE
               else st.previous_exclusion_hash))
    ∧ hashInvariant (initState R E)
    ∧ (∀ s c i, hashInvariant s → hashInvariant (tick s c i).state)
    ∧ (∀ ch ticks, hashInvariant (runTicks (initState R E) ch ticks).1) := by
  refine ⟨?_, ?_, ⟨rfl, rfl⟩, tick_hashInv, ?_⟩
  · intro newR hload hrep
    have h := processEvent_repl_ok_fields st inp ev newR hrep hload
    exact ⟨h.1, h.2.1⟩
  · intro newE hload hexc hrep
    rw [processEvent_noRepl st inp ev hrep]
    have h := exclPart_ok_fields st inp ev newE hexc hload
    exact ⟨h.1, h.2.1⟩
  · intro ch ticks
    exact runTicks_hashInv ticks _ ch ⟨rfl, rfl⟩

/-- A non-trivial rule set whose hash differs from the empty one. -/
def c4wRepl : List Replacement := [⟨"x".data, "y".data⟩]

/-- A tick whose replacements load succeeds with `c4wRepl`. -/
def c4wInput : TickInput :=
  ⟨Except.error (), true, true, Except.ok c4wRepl, Except.error (), true,
   true, true⟩

/-- C4 witness: from the freshly initialised empty config, a successful
reload with different content is applied, and the fingerprint invariant
holds of the initial state. -/
theorem c4_fingerprint_witness :
    (processEvent (initState [] []) c4wInput c3wEvent).1.replacements = c4wRepl
    ∧ hashInvariant (initState [] []) := by
  have h := c4_fingerprint (initState [] []) c4wInput c3wEvent [] []
  refine ⟨?_, h.2.2.1⟩
  rw [(h.1 c4wRepl rfl rfl).1, if_pos (by decide)]

/-- C5 (amended): the drain step performs a single non-blocking `try_recv`
per iteration: exactly the head message (if any) is removed from the queue
— every later message stays queued for a later tick — and the head's event
is the only one processed; with an empty queue the config state and the
channel are untouched and the iteration does not wait for events. -/
theorem c5_drain_single (st : AgentState) (ch : Channel) (inp : TickInput) :
    (tick st ch inp).chan.queue = ch.queue.tail
    ∧ (∀ ev rest, ch.queue = some ev :: rest →
        (tick st ch inp).state = (processEvent st inp ev).1)
    ∧ (∀ rest, ch.queue = none :: rest → (tick st ch inp).state = st)
    ∧ (ch.queue = [] → ch.disconnected = false →
        (tick st ch inp).state = st ∧ (tick st ch inp).chan = ch) := by
  refine ⟨?_, ?_, ?_, ?_⟩
  · match hq : ch.queue with
    | [] =>
      match hd : ch.disconnected with
      | false =>
        rw [(tick_queue_empty st ch inp hq hd).2, hq]
        rfl
      | true =>
        rw [(tick_disconnected st ch inp hq hd).2]
        rfl
    | some ev :: rest =>
      rw [(tick_queue_head st ch inp ev rest hq).2.2]
      rfl
    | none :: rest =>
      rw [(tick_queue_err st ch inp rest hq).2]
      rfl
  · intro ev rest hq
    exact (tick_queue_head st ch inp ev rest hq).1
  · intro rest hq
    exact (tick_queue_err st ch inp rest hq).1
  · intro hq hd
    exact tick_queue_empty st ch inp hq hd

/-- A second single-path event, for the exclusions file. -/
def c5Event2 : Event := ⟨[ConfigPath.exclusions]⟩

/-- A channel with two pending messages at the same tick. -/
def c5ChanTwo : Channel := ⟨[some c3wEvent, some c5Event2], false⟩

/-- A tick whose two loads both succeed. -/
def c5Input : TickInput :=
  ⟨Except.error (), true, true, Except.ok [], Except.ok [], true, true, true⟩

/-- C5 counterexample: with two watcher messages pending at the tick, the
drain step removes only the first; the second — delivered before the drain
— is still queued after the iteration, contrary to the claim that no
previously delivered event remains queued after the drain step. -/
theorem c5_second_message_left_queued :
    c5ChanTwo.queue.length = 2
    ∧ (tick (initState [] []) c5ChanTwo c5Input).chan.queue = [some c5Event2] :=
  ⟨rfl, rfl⟩

/-- C5 witness: with an empty queue the iteration leaves the state and the
channel untouched. -/
theorem c5_drain_single_witness :
    (tick (initState [] []) ⟨[], false⟩ c5Input).state = initState [] [] :=
  ((c5_drain_single (initState [] []) ⟨[], false⟩ c5Input).2.2.2 rfl rfl).1

/-- C8: in an iteration whose clipboard read and normalization succeed,
the clipboard is written exactly when the normalized text differs from
what was read; when they are equal nothing is written; at most one write
is attempted per iteration; a failed write logs exactly one warning, and
has no effect on the configuration state or on the channel handling of
the iteration (it is not fatal and not retried). -/
theorem c8_compare_and_write (st : AgentState) (ch : Channel) (inp : TickInput)
    (content formatted : List Char)
    (hread : inp.clipboardRead = Except.ok content)
    (hfmt : format_text content st.replacements st.exclusion_list
      = Except.ok formatted) :
    (tick st ch inp).writes = (if content = formatted then [] else [formatted])
    ∧ (tick st ch inp).writes.length ≤ 1
    ∧ (content ≠ formatted → inp.writeOk = false →
        (tick st ch inp).logs.count LogEntry.setFailed = 1)
    ∧ (content = formatted →
        (tick st ch inp).logs.count LogEntry.setFailed = 0)
    ∧ (tick st ch inp).state = (tick st ch { inp with writeOk := true }).state
    ∧ (tick st ch inp).chan = (tick st ch { inp with writeOk := true }).chan := by
  have hclip : clipboardStep st inp
      = (if content ≠ formatted
         then (if inp.writeOk then ([LogEntry.formattedInfo], [formatted])
               else ([LogEntry.formattedInfo, LogEntry.setFailed], [formatted]))
         else ([], ([] : List (List Char)))) := by
    unfold clipboardStep
    rw [hread]
    dsimp only
    rw [hfmt]
  have h1 : (tick st ch inp).writes
      = (if content = formatted then [] else [formatted]) := by
    show (clipboardStep st inp).2 = _
    rw [hclip]
    by_cases hc : content = formatted
    · rw [if_neg (not_not_intro hc), if_pos hc]
    · rw [if_pos hc, if_neg hc]
      cases hwk : inp.writeOk <;> rfl
  refine ⟨h1, ?_, ?_, ?_, rfl, rfl⟩
  · rw [h1]
    split_ifs <;> simp
  · intro hne hwf
    show ((clipboardStep st inp).1 ++ (drainStep st ch inp).2.2).count
        LogEntry.setFailed = 1
    rw [List.count_append, hclip, if_pos hne, hwf,
      drainStep_count_zero st ch inp LogEntry.setFailed (by decide) (by decide)
        (by decide) (by decide) (by decide) (by decide) (by decide) (by decide)
        (by decide)]
    rfl
  · intro heq
    show ((clipboardStep st inp).1 ++ (drainStep st ch inp).2.2).count
        LogEntry.setFailed = 0
    rw [List.count_append, hclip, if_neg (not_not_intro heq),
      drainStep_count_zero st ch inp LogEntry.setFailed (by decide) (by decide)
        (by decide) (by decide) (by decide) (by decide) (by decide) (by decide)
        (by decide)]
    rfl

/-- A tick that reads a full-width `ａ` and whose clipboard write fails. -/
def c8Input : TickInput :=
  ⟨Except.ok "ａ".data, false, true, Except.error (), Except.error (), true,
   true, true⟩

/-- C8 witness: the normalized text differs from the read text, so exactly
one write of the normalized text is attempted, and its failure is logged
exactly once. -/
theorem c8_compare_and_write_witness :
    (tick (initState [] []) ⟨[], false⟩ c8Input).writes = ["a".data]
    ∧ (tick (initState [] []) ⟨[], false⟩ c8Input).logs.count
        LogEntry.setFailed = 1 := by
  have h := c8_compare_and_write (initState [] []) ⟨[], false⟩ c8Input
    "ａ".data "a".data rfl rfl
  refine ⟨?_, h.2.2.1 (by decide) rfl⟩
  rw [h.1]
  rfl

/-- C9: the clipboard open constructs the provider and then probes it —
always a read first, and the empty-string write only when the read fails —
and it returns an error exactly when the provider construction fails or
when both the probe read and the probe write fail; otherwise it returns a
usable handle. -/
theorem c9_open_probe (env : ProbeEnv) :
    ((create_clipboard_context env).1 = Except.ok ()
      ↔ (env.newOk = true ∧ (env.readOk = true ∨ env.writeEmptyOk = true)))
    ∧ (env.newOk = true →
        (create_clipboard_context env).2.head? = some ProbeOp.read)
    ∧ (env.newOk = true →
        (ProbeOp.writeEmpty ∈ (create_clipboard_context env).2
          ↔ env.readOk = false))
    ∧ (env.newOk = false → (create_clipboard_context env).2 = []) := by
  rcases env with ⟨n, r, w⟩
  cases n <;> cases r <;> cases w <;> decide

/-- C9 witness: with a working provider whose probe read fails but whose
probe write succeeds, the read is attempted first and the handle is still
returned. -/
theorem c9_open_probe_witness :
    (create_clipboard_context ⟨true, false, true⟩).2.head? = some ProbeOp.read :=
  (c9_open_probe ⟨true, false, true⟩).2.1 rfl

/-- C10: `format_text` always returns `Ok` — its only error source is the
compilation of the fixed pattern `[！-～]`, which succeeds — so the
format-failure branch of the loop is dead: no iteration ever logs it. -/
theorem c10_format_total (text : List Char) (R : List Replacement)
    (E : List Char) (st : AgentState) (ch : Channel) (inp : TickInput) :
    (∃ res, format_text text R E = Except.ok res)
    ∧ (tick st ch inp).logs.count LogEntry.formatFailed = 0 := by
  constructor
  · exact ⟨_, rfl⟩
  · show ((clipboardStep st inp).1 ++ (drainStep st ch inp).2.2).count
        LogEntry.formatFailed = 0
    rw [List.count_append, clipboardStep_count_formatFailed,
      drainStep_count_zero st ch inp LogEntry.formatFailed (by decide) (by decide)
        (by decide) (by decide) (by decide) (by decide) (by decide) (by decide)
        (by decide)]

end KillZenAll
